import Mathlib

/-!
Verification development for the admin form/field engine:
the `useField` binding, the rich text field component, and the
`DocumentInfo` provider, shallowly embedded as pure Lean functions.
-/

namespace Payload

/-- A JavaScript runtime value, as far as the embedded code needs it:
`undefv` is `undefined`, `nullv` is `null`; objects are association lists
of fields; arrays are ordered lists. -/
inductive JSValue where
  | undefv : JSValue
  | nullv : JSValue
  | boolean : Bool → JSValue
  | number : Int → JSValue
  | string : String → JSValue
  | array : List JSValue → JSValue
  | object : List (String × JSValue) → JSValue

/-- JavaScript truthiness of a value. -/
def truthy : JSValue → Bool
  | .undefv => false
  | .nullv => false
  | .boolean b => b
  | .number n => n != 0
  | .string s => !s.isEmpty
  | .array _ => true
  | .object _ => true

/-- Property access `v.k` (and the optional-chaining form `v?.k`):
a missing field, or access on a non-object, yields `undefined`. -/
def getField : JSValue → String → JSValue
  | .object fs, k => (fs.lookup k).getD .undefv
  | _, _ => .undefv

/-- Index access `v[i]` on an array value; anything else yields `undefined`. -/
def getIndex : JSValue → Nat → JSValue
  | .array xs, i => (xs.get? i).getD .undefv
  | _, _ => .undefv

/-!
## Field Value Store entries and the `useField` binding
(src/admin/components/forms/useField/index.tsx)
-/

/-- One entry of the Field Value Store, as read back by `useField`
through `fields[path]`.  `valid` is kept as a raw JavaScript value
because the source guards on `typeof field?.valid === 'boolean'`;
`errorMessage` is the committed message, if any. -/
structure FieldEntry where
  value : JSValue
  initialValue : JSValue
  valid : JSValue
  errorMessage : Option String

/-- `useField` line 31:
`const valid = typeof field?.valid === 'boolean' ? field.valid : true;`
The argument is `fields[path]`, which may be absent (`none`). -/
def derivedValid : Option FieldEntry → Bool
  | some f =>
    match f.valid with
    | JSValue.boolean b => b
    | _ => true
  | none => true

/-- `useField` line 32: `const showError = valid === false && submitted;`. -/
def showError (field : Option FieldEntry) (submitted : Bool) : Bool :=
  (derivedValid field == false) && submitted

/-- The value a validation function returns: `true`, `false`, or an
error-message string (`boolean | string`, §6 of the spec). -/
inductive ValidationResult where
  | boolean : Bool → ValidationResult
  | message : String → ValidationResult

/-- `useField` lines 95-101: how the awaited validation result is folded
into the `UPDATE` action — a string result means invalid with that string
as the error message; a boolean result is stored as-is with no message. -/
def validationAction : ValidationResult → Bool × Option String
  | .message s => (false, some s)
  | .boolean b => (b, none)

/-- `useField` line 103: the commit guard
`if (action.valid !== valid && typeof dispatchField === 'function')` —
the action is dispatched only when the computed validity differs from the
currently derived (previously committed) validity. -/
def validateDispatches (field : Option FieldEntry) (r : ValidationResult) : Bool :=
  (validationAction r).1 != derivedValid field

/-- Modelled from the spec: the Form reducer (it lives outside src/)
applying a dispatched validation `UPDATE` action — it stores the action's
`valid` and `errorMessage` into the FieldState and, per §4.2, "validation
actions must not overwrite `value`" (nor `initialValue`). A missing entry
is created with undefined value fields. -/
def applyValidationUpdate (field : Option FieldEntry) (r : ValidationResult) : FieldEntry :=
  { value := (field.map (·.value)).getD JSValue.undefv
    initialValue := (field.map (·.initialValue)).getD JSValue.undefv
    valid := JSValue.boolean (validationAction r).1
    errorMessage := (validationAction r).2 }

/-- One run of the debounced `validateField` body (`useField` lines
72-108) on a field whose committed store entry is `field` and whose
validation function produced `r`: returns the store entry afterwards and
whether an `UPDATE` action was dispatched. -/
def validateStep (field : Option FieldEntry) (r : ValidationResult) :
    Option FieldEntry × Bool :=
  if validateDispatches field r then (some (applyValidationUpdate field r), true)
  else (field, false)

/-!
## `setValue` (src/admin/components/forms/useField/index.tsx, lines 36-57)
-/

/-- `useField` line 37: `const val = (e && e.target) ? e.target.value : e;`. -/
def extractValue (e : JSValue) : JSValue :=
  if truthy e && truthy (getField e "target") then getField (getField e "target") "value"
  else e

/-- Modelled from the spec: the Form reducer (outside src/) applying a
value `UPDATE` action — per §3/§8, it sets the field's `value` at the
path and leaves `initialValue` (and everything else) unchanged; a missing
entry is created with undefined `initialValue`. -/
def applyValueUpdate (fields : String → Option FieldEntry) (path : String) (v : JSValue) :
    String → Option FieldEntry :=
  fun q =>
    if q = path then
      match fields path with
      | some f => some { f with value := v }
      | none => some { value := v, initialValue := .undefv, valid := .undefv, errorMessage := none }
    else fields q

/-- The form-level state `setValue` touches: the `modified` flag and the
Field Value Store. -/
structure FormState where
  modified : Bool
  fields : String → Option FieldEntry

/-- `useField` lines 36-57: one call of `setValue(e, disableModifyingForm)`.
Returns the new form state and whether `setModified(true)` was invoked. -/
def setValue (st : FormState) (path : String) (e : JSValue) (disableModifyingForm : Bool) :
    FormState × Bool :=
  let val := extractValue e
  let callsSetModified := !st.modified && !disableModifyingForm
  ({ modified := if callsSetModified then true else st.modified
     fields := applyValueUpdate st.fields path val },
   callsSetModified)

/-!
## Rich text field: value initialization
(src/admin/components/forms/field-types/RichText, lines 336-346)
-/

/-- Modelled from the spec: `fields/richText/defaultValue` is imported by
the rich text field but not under src/; §4.3 describes it as "a default
single-empty-paragraph document". -/
def defaultValue : JSValue :=
  JSValue.array [JSValue.object [("children", JSValue.array [JSValue.object [("text", JSValue.string "")]])]]

/-- RichText lines 336-346: if the field value is a string, try
`JSON.parse`; a parse failure is caught and ignored (the string is kept);
afterwards a falsy value falls back to `defaultValue`.  `JSON.parse` is a
runtime builtin, so it is a parameter here: `none` models a thrown
`SyntaxError`, `some v` a successful parse. -/
def valueToRender (jsonParse : String → Option JSValue) (value : JSValue) : JSValue :=
  let v :=
    match value with
    | JSValue.string s =>
      match jsonParse s with
      | some parsed => parsed
      | none => value
    | _ => value
  if truthy v then v else defaultValue

/-- Models the runtime builtin `JSON.parse` on the inputs these theorems
evaluate it at.  A JSON text starting with the letter `n` can only be the
literal `null`; `"not valid json"` is therefore rejected by every
conforming parser, and by this model (which accepts only the three
keyword literals and rejects everything else). -/
def jsonParseModel (s : String) : Option JSValue :=
  if s = "null" then some JSValue.nullv
  else if s = "true" then some (JSValue.boolean true)
  else if s = "false" then some (JSValue.boolean false)
  else none

/-!
## Rich text field: read-only mode
(src/admin/components/forms/field-types/RichText, lines 307-330)
-/

/-- A DOM element as far as `setClickableState` touches it: its tag name
and its attribute map. -/
structure DomElement where
  tagName : String
  attrs : List (String × String)
  deriving DecidableEq

/-- Assoc-list update used by the attribute model. -/
def setAttrList : List (String × String) → String → String → List (String × String)
  | [], n, v => [(n, v)]
  | (k, w) :: rest, n, v =>
    if k = n then (n, v) :: rest else (k, w) :: setAttrList rest n v

/-- Models DOM `Element.setAttribute(name, value)`: the value is a
DOMString, so a JavaScript `null` argument is coerced to the string
`"null"` — the attribute is set, never removed. -/
def setAttribute (el : DomElement) (name : String) (value : Option String) : DomElement :=
  { el with attrs := setAttrList el.attrs name (value.getD "null") }

/-- Attribute lookup on the element model. -/
def getAttribute (el : DomElement) (name : String) : Option String :=
  el.attrs.lookup name

/-- Models the HTML semantics of the boolean `disabled` attribute: a
button is disabled exactly when the attribute is present, whatever its
value. -/
def isDisabledControl (el : DomElement) : Bool :=
  (getAttribute el "disabled").isSome

/-- RichText lines 313-318, the per-control body of `setClickableState`:
sets `tabIndex` to `"-1"` when disabling and `"0"` when enabling, and on
`<button>` elements sets the `disabled` attribute to `'disabled'` when
disabling and to `null` when enabling. -/
def setClickableState (clickState : String) (child : DomElement) : DomElement :=
  let isButton := child.tagName == "BUTTON"
  let isDisabling := clickState == "disabled"
  let c := setAttribute child "tabIndex" (some (if isDisabling then "-1" else "0"))
  if isButton then setAttribute c "disabled" (if isDisabling then some "disabled" else none)
  else c

/-!
## Rich text field: Backspace inside a list item
(src/admin/components/forms/field-types/RichText, lines 461-477)
-/

/-- A node of the structured-document tree: a text leaf or an element
with an optional `type` tag and ordered children (§3, RichTextValue). -/
inductive SNode where
  | text : String → SNode
  | element : Option String → List SNode → SNode

/-- `Node.descendant(editor, path)`: walk the path of child indices from
the editor root (whose children are `ns`). -/
def descendant (ns : List SNode) : List Nat → Option SNode
  | [] => none
  | [i] => ns.get? i
  | i :: j :: rest =>
    match ns.get? i with
    | some (SNode.element _ cs) => descendant cs (j :: rest)
    | _ => none

/-- Modelled from the spec: `elements/listTypes` is imported by the rich
text field but not under src/; the list container element types are the
ordered and unordered list (`ol`, `ul`). -/
def listTypes : List String := ["ol", "ul"]

/-- Modelled from the spec: slate's `Transforms.unwrapNodes` with
`match: listTypes` and `split: true` (the slate library is an external
collaborator), acting on a selection inside item `k` of a list container
at root index `j`: the container is removed, the item holding the
selection is promoted to the root, and when the item was not first/last
the remaining items are re-wrapped into list containers before and after
it (the split); sibling items are otherwise untouched. -/
def unwrapListSplit (nodes : List SNode) : List Nat → List SNode
  | j :: k :: _ =>
    match nodes.get? j with
    | some (SNode.element (some t) items) =>
      if listTypes.contains t then
        let before := items.take k
        let selected := (items.drop k).take 1
        let after := items.drop (k + 1)
        nodes.take j
          ++ (if before.isEmpty then [] else [SNode.element (some t) before])
          ++ selected
          ++ (if after.isEmpty then [] else [SNode.element (some t) after])
          ++ nodes.drop (j + 1)
      else nodes
    | _ => nodes
  | _ => nodes

/-- The editor state the Backspace handler reads: the document children,
the selection anchor (`editor.selection.anchor`) as a path plus an
offset, and the element types the enabled plugins mark as void
(`editor.isVoid`). -/
structure EditorState where
  children : List SNode
  anchorPath : List Nat
  anchorOffset : Nat
  voidTypes : List String

/-- Modelled from the spec: slate's `Transforms.removeNodes` at the
selection — removes the element the cursor sits in (used by the
void-element branch of the handler). -/
def removeAt : List SNode → List Nat → List SNode
  | ns, [] => ns
  | ns, [i] => ns.eraseIdx i
  | ns, i :: j :: rest =>
    match ns.get? i with
    | some (SNode.element t cs) => ns.set i (SNode.element t (removeAt cs (j :: rest)))
    | _ => ns

/-- RichText lines 461-477: the `onKeyDown` Backspace branch.
`selectedElement` is the parent of the anchor; when it is an element of
type `li` and the selected leaf's text has length 1, the enclosing list
is unwrapped (with split); otherwise, when the selected element is void,
it is removed wholesale.  (`Transforms.setNodes(editor, {})` after the
unwrap sets no properties and is a no-op on the tree.) -/
def onBackspace (ed : EditorState) : EditorState :=
  match descendant ed.children ed.anchorPath.dropLast with
  | some (SNode.element ty _) =>
    if ty = some "li" then
      match descendant ed.children ed.anchorPath with
      | some (SNode.text s) =>
        if s.length = 1 then
          { ed with children := unwrapListSplit ed.children ed.anchorPath.dropLast }
        else ed
      | _ => ed
    else if (match ty with | some t => ed.voidTypes.contains t | none => false) then
      { ed with children := removeAt ed.children ed.anchorPath.dropLast }
    else ed
  | _ => ed

/-!
## Document Info Provider
(src/admin/components/utilities/DocumentInfo/index.tsx)
-/

/-- The global descriptor the provider receives: slug plus whether
versioning is enabled (`Boolean(global?.versions)`). -/
structure GlobalDesc where
  slug : String
  versions : Bool

/-- The collection descriptor the provider receives: slug plus whether
versioning is enabled (`Boolean(collection?.versions)`). -/
structure CollectionDesc where
  slug : String
  versions : Bool

/-- An atomic `where` condition as built by `getVersions`
(field operators `equals`, `exists`, `greater_than`, §6). -/
inductive SimpleCond where
  | equalsOp : String → JSValue → SimpleCond
  | existsOp : String → Bool → SimpleCond
  | greaterThan : String → JSValue → SimpleCond

/-- A member of a `where.and` list: either an atomic condition or an
`or` group of atomic conditions. -/
inductive Cond where
  | simple : SimpleCond → Cond
  | orGroup : List SimpleCond → Cond

/-- The query parameters of one fetch: the `where.and` list and `depth`
(query strings are carried structurally here rather than qs-encoded). -/
structure QueryParams where
  whereAnd : List Cond
  depth : Nat

/-- One HTTP GET issued by `getVersions`: target URL and query params. -/
structure Req where
  url : String
  params : QueryParams

/-- An HTTP response: status code and parsed JSON body. -/
structure FetchResponse where
  status : Nat
  body : JSValue

/-- The three pieces of state `getVersions` publishes together
(lines 149-151): `publishedDoc`, `versions`, `unpublishedVersions`
(`nullv` standing for the JavaScript `null` they are initialised to). -/
structure GetVersionsState where
  publishedDoc : JSValue
  versions : JSValue
  unpublishedVersions : JSValue

/-- DocumentInfo lines 63-83: the published-snapshot filter
`{ or: [ { _status: { equals: 'published' } }, { _status: { exists: false } } ] }`. -/
def publishedStatusCond : Cond :=
  Cond.orGroup [SimpleCond.equalsOp "_status" (JSValue.string "published"),
                SimpleCond.existsOp "_status" false]

/-- The JavaScript value of the optional `id` prop. -/
def idToJS : Option String → JSValue
  | some s => JSValue.string s
  | none => JSValue.undefv

/-- DocumentInfo lines 48-153: the body of `getVersions`, embedded as a
pure function over a fetch oracle (`fetchFn` maps each request the code
makes to the response the network returns).  Returns the list of
requests issued, in order, and — when `shouldFetch` held — the state
published at the end (`none` means the early-out left all three state
cells untouched). -/
def getVersions (fetchFn : Req → FetchResponse) (global : Option GlobalDesc)
    (collection : Option CollectionDesc) (id : Option String) (baseURL : String) :
    List Req × Option GetVersionsState :=
  let versionAnd0 : List Cond := []
  let publishedAnd0 : List Cond := [publishedStatusCond]
  let globalCfg :=
    match global with
    | some g => (g.versions, baseURL ++ "/globals/" ++ g.slug ++ "/versions",
                 baseURL ++ "/globals/" ++ g.slug)
    | none => (false, "", "")
  let cfg :=
    match collection with
    | some c =>
      (c.versions, baseURL ++ "/" ++ c.slug ++ "/versions", baseURL ++ "/" ++ c.slug,
       publishedAnd0 ++ [Cond.simple (SimpleCond.equalsOp "id" (idToJS id))],
       id.isSome,
       versionAnd0 ++ [Cond.simple (SimpleCond.equalsOp "parent" (idToJS id))])
    | none => (globalCfg.1, globalCfg.2.1, globalCfg.2.2, publishedAnd0, true, versionAnd0)
  let shouldFetchVersions := cfg.1
  let versionFetchURL := cfg.2.1
  let publishedFetchURL := cfg.2.2.1
  let publishedAnd := cfg.2.2.2.1
  let shouldFetch := cfg.2.2.2.2.1
  let versionAnd := cfg.2.2.2.2.2
  if shouldFetch then
    let pubReq : Req := ⟨publishedFetchURL, ⟨publishedAnd, 0⟩⟩
    let pubRes := fetchFn pubReq
    let publishedJSON :=
      if collection.isSome then getIndex (getField pubRes.body "docs") 0 else pubRes.body
    if shouldFetchVersions then
      let verReq : Req := ⟨versionFetchURL, ⟨versionAnd, 0⟩⟩
      let verRes := fetchFn verReq
      if truthy (getField publishedJSON "updatedAt") then
        let newerReq : Req :=
          ⟨versionFetchURL,
           ⟨versionAnd ++ [Cond.simple (SimpleCond.greaterThan "updatedAt" (getField publishedJSON "updatedAt"))], 0⟩⟩
        let newerRes := fetchFn newerReq
        let unpub := if newerRes.status = 200 then newerRes.body else JSValue.nullv
        ([pubReq, verReq, newerReq], some ⟨publishedJSON, verRes.body, unpub⟩)
      else
        ([pubReq, verReq], some ⟨publishedJSON, verRes.body, JSValue.nullv⟩)
    else
      ([pubReq], some ⟨publishedJSON, JSValue.nullv, JSValue.nullv⟩)
  else ([], none)

/-- DocumentInfo lines 29-46: derivation of `preferencesKey` — set to
`global-<slug>` by the global branch, overwritten with
`collection-<slug>-<id>` by the collection branch only when an id is
present. -/
def preferencesKey (global : Option GlobalDesc) (collection : Option CollectionDesc)
    (id : Option String) : Option String :=
  let k0 : Option String := none
  let k1 :=
    match global with
    | some g => some ("global-" ++ g.slug)
    | none => k0
  match collection with
  | some c =>
    match id with
    | some i => some ("collection-" ++ c.slug ++ "-" ++ i)
    | none => k1
  | none => k1

/-!
## A server model for the version-fetch scenario
-/

/-- Server-side primitive equality for the `equals` operator (compares
primitive JSON values). -/
def jsEq : JSValue → JSValue → Bool
  | .string a, .string b => a == b
  | .number a, .number b => a == b
  | .boolean a, .boolean b => a == b
  | .nullv, .nullv => true
  | .undefv, .undefv => true
  | _, _ => false

/-- Strict lexicographic order on character lists, used to compare
ISO-8601 timestamp strings (on which it is chronological order). -/
def charListLt : List Char → List Char → Bool
  | [], [] => false
  | [], _ :: _ => true
  | _ :: _, [] => false
  | a :: as, b :: bs => if a < b then true else if b < a then false else charListLt as bs

/-- Modelled from the spec: server-side evaluation of one atomic `where`
operator on a document (§6: `equals`, `exists`, `greater_than`;
`greater_than` on timestamp strings is a strict lexicographic
comparison). -/
def evalSimple (doc : JSValue) : SimpleCond → Bool
  | .equalsOp f v => jsEq (getField doc f) v
  | .existsOp f present =>
    (match getField doc f with
     | JSValue.undefv => false
     | _ => true) == present
  | .greaterThan f v =>
    match getField doc f, v with
    | .string a, .string b => charListLt b.data a.data
    | _, _ => false

/-- Modelled from the spec: evaluation of a `where.and` member. -/
def evalCond (doc : JSValue) : Cond → Bool
  | .simple c => evalSimple doc c
  | .orGroup cs => cs.any (evalSimple doc)

/-- Modelled from the spec: a document matches when every member of the
`and` list holds. -/
def evalWhere (doc : JSValue) (conds : List Cond) : Bool :=
  conds.all (evalCond doc)

/-- The scenario dataset's published document: collection entry `42`,
published at `2024-01-01T00:00:00Z`, no `_status` field (legacy doc). -/
def post42 : JSValue :=
  JSValue.object [("id", JSValue.string "42"),
                  ("updatedAt", JSValue.string "2024-01-01T00:00:00Z")]

/-- The scenario dataset's versions: one dated exactly at the published
timestamp and one strictly newer. -/
def postVersions : List JSValue :=
  [JSValue.object [("parent", JSValue.string "42"),
                   ("updatedAt", JSValue.string "2024-01-01T00:00:00Z")],
   JSValue.object [("parent", JSValue.string "42"),
                   ("updatedAt", JSValue.string "2024-01-02T00:00:00Z")]]

/-- Modelled from the spec: the REST API the provider consumes (§6) —
`GET /{collection}?where=…` returns `{ docs: [...] }` filtered by the
query, and `GET /{collection}/versions?where=…` a filtered version list,
over the fixed scenario dataset for the collection `posts`. -/
def serverOracle (r : Req) : FetchResponse :=
  if r.url = "/posts" then
    ⟨200, JSValue.object [("docs", JSValue.array ([post42].filter (fun d => evalWhere d r.params.whereAnd)))]⟩
  else if r.url = "/posts/versions" then
    ⟨200, JSValue.object [("docs", JSValue.array (postVersions.filter (fun d => evalWhere d r.params.whereAnd)))]⟩
  else ⟨404, JSValue.nullv⟩

/-!
## Derived request shapes and witness fixtures
-/

/-- The published-snapshot request `getVersions` issues for a collection
document: `GET {base}/{slug}` filtered to published-or-legacy status and
the given id (DocumentInfo lines 63-101, 115). -/
def collectionPubReq (slug i baseURL : String) : Req :=
  ⟨baseURL ++ "/" ++ slug,
   ⟨[publishedStatusCond, Cond.simple (SimpleCond.equalsOp "id" (JSValue.string i))], 0⟩⟩

/-- The version-list request `getVersions` issues for a collection
document: `GET {base}/{slug}/versions` filtered to `parent = id`
(DocumentInfo lines 56-61, 93, 107-111, 122). -/
def collectionVerReq (slug i baseURL : String) : Req :=
  ⟨baseURL ++ "/" ++ slug ++ "/versions",
   ⟨[Cond.simple (SimpleCond.equalsOp "parent" (JSValue.string i))], 0⟩⟩

/-- The newer-versions (drafts) request: the version-list query plus
`updatedAt greater_than <published timestamp>` (DocumentInfo lines
124-141). -/
def collectionNewerReq (slug i baseURL : String) (ts : JSValue) : Req :=
  ⟨baseURL ++ "/" ++ slug ++ "/versions",
   ⟨[Cond.simple (SimpleCond.equalsOp "parent" (JSValue.string i)),
     Cond.simple (SimpleCond.greaterThan "updatedAt" ts)], 0⟩⟩

/-- The published snapshot `getVersions` extracts for a collection:
`publishedJSON?.docs?.[0]` of the published-request response
(DocumentInfo lines 115-119). -/
def collectionPublished (fetchFn : Req → FetchResponse) (c : CollectionDesc)
    (i baseURL : String) : JSValue :=
  getIndex (getField (fetchFn (collectionPubReq c.slug i baseURL)).body "docs") 0

/-- A concrete form for the C4 witness: one field at path "title",
unmodified form. -/
def demoEntry : FieldEntry :=
  ⟨JSValue.string "old", JSValue.string "init", JSValue.undefv, none⟩

/-- A concrete form state holding `demoEntry` at path "title". -/
def demoForm : FormState :=
  ⟨false, fun q => if q = "title" then some demoEntry else none⟩

/-- A concrete DOM-event-like argument: `{ target: { value: "new" } }`. -/
def demoEvent : JSValue :=
  JSValue.object [("target", JSValue.object [("value", JSValue.string "new")])]

/-- A concrete three-item list for the C7 witness; the middle item holds
the single-character text the cursor sits in. -/
def demoItems : List SNode :=
  [SNode.element (some "li") [SNode.text "a"],
   SNode.element (some "li") [SNode.text "x"],
   SNode.element (some "li") [SNode.text "b"]]

/-!
## Theorems
-/

/-- After a dispatched validation action is applied, the derived
validity equals the action's validity. -/
theorem derivedValid_applyValidationUpdate (field : Option FieldEntry) (r : ValidationResult) :
    derivedValid (some (applyValidationUpdate field r)) = (validationAction r).1 := rfl

/-- C1: the debounced validation pipeline dispatches an `UPDATE` action
only when the computed validity differs from the previously committed
(derived) validity; re-running it with the same result changes nothing
and dispatches nothing further (at most one commit per distinct validity
result); and for a field whose derived validity is already `false`, a
string result — an error-message change — is never dispatched. -/
theorem useField_commit_policy (field : Option FieldEntry) (r : ValidationResult) :
    ((validateStep field r).2 = true ↔ (validationAction r).1 ≠ derivedValid field)
    ∧ (validateStep (validateStep field r).1 r).1 = (validateStep field r).1
    ∧ (validateStep (validateStep field r).1 r).2 = false
    ∧ (derivedValid field = false →
        ∀ s : String, (validateStep field (ValidationResult.message s)).2 = false) := by
  by_cases h : (validationAction r).1 = derivedValid field
  · have hstep : validateStep field r = (field, false) := by
      simp [validateStep, validateDispatches, h]
    refine ⟨?_, ?_, ?_, ?_⟩
    · simp [hstep, h]
    · simp [hstep]
    · simp [hstep]
    · intro hinv s
      simp [validateStep, validateDispatches, validationAction, hinv]
  · have hstep : validateStep field r = (some (applyValidationUpdate field r), true) := by
      simp [validateStep, validateDispatches, h]
    have hsecond : validateDispatches (some (applyValidationUpdate field r)) r = false := by
      simp [validateDispatches, derivedValid_applyValidationUpdate]
    refine ⟨?_, ?_, ?_, ?_⟩
    · simp [hstep, h]
    · rw [hstep]
      simp [validateStep, hsecond]
    · rw [hstep]
      simp [validateStep, hsecond]
    · intro hinv s
      simp [validateStep, validateDispatches, validationAction, hinv]

/-- C1 witness: a field committed invalid with message "too short" stays
uncommitted when validation produces the new message "required" — the
message change is dropped. -/
theorem useField_commit_policy_witness :
    derivedValid (some ⟨JSValue.undefv, JSValue.undefv, JSValue.boolean false, some "too short"⟩) = false
    ∧ (validateStep (some ⟨JSValue.undefv, JSValue.undefv, JSValue.boolean false, some "too short"⟩)
        (ValidationResult.message "required")).2 = false :=
  ⟨rfl,
   (useField_commit_policy
      (some ⟨JSValue.undefv, JSValue.undefv, JSValue.boolean false, some "too short"⟩)
      (ValidationResult.message "required")).2.2.2 rfl "required"⟩

/-- C3: `showError` holds exactly when the derived validity is `false`
and the form has been submitted; in particular it is `false` whenever
the form has not been submitted, whatever the validity. -/
theorem useField_showError_gate (field : Option FieldEntry) (submitted : Bool) :
    (showError field submitted = true ↔ (derivedValid field = false ∧ submitted = true))
    ∧ (submitted = false → showError field submitted = false) := by
  constructor
  · unfold showError
    cases h : derivedValid field <;> cases submitted <;> simp
  · intro h
    subst h
    simp [showError]

/-- C3 witness: an invalid field on an unsubmitted form shows no error. -/
theorem useField_showError_gate_witness :
    showError (some ⟨JSValue.undefv, JSValue.undefv, JSValue.boolean false, none⟩) false = false :=
  (useField_showError_gate (some ⟨JSValue.undefv, JSValue.undefv, JSValue.boolean false, none⟩) false).2 rfl

/-- C10: a field with no store entry, or whose entry's `valid` is not a
boolean, derives `valid = true`, and therefore never shows an error,
submitted or not. -/
theorem useField_unvalidated_defaults_valid (field : Option FieldEntry)
    (h : field = none ∨ ∀ b : Bool, field.map (·.valid) ≠ some (JSValue.boolean b)) :
    derivedValid field = true ∧ ∀ submitted : Bool, showError field submitted = false := by
  have hval : derivedValid field = true := by
    rcases h with h | h
    · subst h; rfl
    · cases field with
      | none => rfl
      | some f =>
        cases hv : f.valid with
        | boolean b => exact absurd (by simp [hv]) (h b)
        | undefv => simp [derivedValid, hv]
        | nullv => simp [derivedValid, hv]
        | number n => simp [derivedValid, hv]
        | string s => simp [derivedValid, hv]
        | array xs => simp [derivedValid, hv]
        | object fs => simp [derivedValid, hv]
  refine ⟨hval, fun submitted => ?_⟩
  simp [showError, hval]

/-- C10 witness: a freshly mounted field (no store entry) is valid and
shows no error even after submission. -/
theorem useField_unvalidated_defaults_valid_witness :
    derivedValid none = true ∧ ∀ submitted : Bool, showError none submitted = false :=
  useField_unvalidated_defaults_valid none (Or.inl rfl)

/-- C2 counterexample: the string `"not valid json"` fails JSON parsing,
but the swallowed failure leaves the (truthy) string itself as the value
handed to the editor — it is not replaced by the default empty-document
tree. -/
theorem richText_invalid_json_counterexample :
    valueToRender jsonParseModel (JSValue.string "not valid json") = JSValue.string "not valid json"
    ∧ valueToRender jsonParseModel (JSValue.string "not valid json") ≠ defaultValue :=
  ⟨rfl, fun h => JSValue.noConfusion h⟩

/-- C2 amended: when the rich text value is a string that fails JSON
parsing, no exception escapes (the failure is swallowed) and a non-empty
unparseable string is handed to the editor unchanged; only a falsy value
— the empty string, `null`, or `undefined` — falls back to the default
empty-document tree. -/
theorem richText_parse_failure_fallback (jsonParse : String → Option JSValue) (s : String)
    (hfail : jsonParse s = none) :
    (s ≠ "" → valueToRender jsonParse (JSValue.string s) = JSValue.string s)
    ∧ (s = "" → valueToRender jsonParse (JSValue.string s) = defaultValue)
    ∧ valueToRender jsonParse JSValue.nullv = defaultValue
    ∧ valueToRender jsonParse JSValue.undefv = defaultValue := by
  refine ⟨?_, ?_, rfl, rfl⟩
  · intro hne
    have hempty : s.isEmpty = false := by
      rcases h : s.isEmpty with _ | _
      · rfl
      · exact absurd ((String.isEmpty_iff (s := s)).mp h) hne
    simp [valueToRender, hfail, truthy, hempty]
  · intro h
    subst h
    simp [valueToRender, hfail, truthy, String.isEmpty]

/-- C2 amended witness: `"not valid json"` is handed through unchanged,
while the empty string falls back to the default document. -/
theorem richText_parse_failure_fallback_witness :
    valueToRender jsonParseModel (JSValue.string "not valid json") = JSValue.string "not valid json"
    ∧ valueToRender jsonParseModel (JSValue.string "") = defaultValue :=
  ⟨(richText_parse_failure_fallback jsonParseModel "not valid json" rfl).1 (by decide),
   (richText_parse_failure_fallback jsonParseModel "" rfl).2.1 rfl⟩

/-- C8: the disable/enable pair of `setClickableState` is not symmetric
on a toolbar `<button>` that starts with no attributes — re-enabling
executes `setAttribute('disabled', null)`, which (null being coerced to
the string `"null"`) leaves the boolean `disabled` attribute present, so
the button remains disabled and the element does not return to its
original state; only `tabIndex` regains a focusable value. -/
theorem richText_readOnly_not_symmetric :
    isDisabledControl (DomElement.mk "BUTTON" []) = false
    ∧ isDisabledControl (setClickableState "disabled" (DomElement.mk "BUTTON" [])) = true
    ∧ isDisabledControl
        (setClickableState "enabled" (setClickableState "disabled" (DomElement.mk "BUTTON" []))) = true
    ∧ getAttribute
        (setClickableState "enabled" (setClickableState "disabled" (DomElement.mk "BUTTON" [])))
        "disabled" = some "null"
    ∧ getAttribute
        (setClickableState "enabled" (setClickableState "disabled" (DomElement.mk "BUTTON" [])))
        "tabIndex" = some "0"
    ∧ setClickableState "enabled" (setClickableState "disabled" (DomElement.mk "BUTTON" []))
        ≠ DomElement.mk "BUTTON" [] := by
  refine ⟨rfl, rfl, rfl, rfl, rfl, ?_⟩
  decide

/-- C9: the preference key is `global-<slug>` for a global descriptor,
`collection-<slug>-<id>` for a collection descriptor with an id, and
undefined for a collection descriptor without an id. -/
theorem documentInfo_preferencesKey (g : GlobalDesc) (c : CollectionDesc) (i : String)
    (id0 : Option String) :
    preferencesKey (some g) none id0 = some ("global-" ++ g.slug)
    ∧ preferencesKey none (some c) (some i) = some ("collection-" ++ c.slug ++ "-" ++ i)
    ∧ preferencesKey none (some c) none = none := by
  refine ⟨?_, rfl, rfl⟩
  cases id0 <;> rfl

/-- C6: for a collection descriptor with no document id, `getVersions`
issues no request at all and publishes none of the three state cells. -/
theorem documentInfo_newDoc_noFetch (fetchFn : Req → FetchResponse) (c : CollectionDesc)
    (baseURL : String) :
    getVersions fetchFn none (some c) none baseURL = ([], none) := rfl

/-- C4: `setValue(e)` dispatches an `UPDATE` whose value is
`e.target.value` when `e` is an event-like object with a (truthy)
target and `e` itself otherwise; the field's `initialValue` is
untouched; `setModified(true)` is invoked exactly on the first call
while the form is unmodified, and never when suppression is requested
via the second argument. -/
theorem useField_setValue_spec (st : FormState) (p : String) (e e2 : JSValue) (f0 : FieldEntry)
    (hf : st.fields p = some f0) :
    ((setValue st p e false).1.fields p).map (·.value) = some (extractValue e)
    ∧ ((truthy e && truthy (getField e "target")) = true →
        extractValue e = getField (getField e "target") "value")
    ∧ ((truthy e && truthy (getField e "target")) = false → extractValue e = e)
    ∧ ((setValue st p e false).1.fields p).map (·.initialValue) = some f0.initialValue
    ∧ (st.modified = false →
        (setValue st p e false).2 = true ∧ (setValue st p e false).1.modified = true)
    ∧ (st.modified = true → (setValue st p e false).2 = false)
    ∧ (setValue (setValue st p e false).1 p e2 false).2 = false
    ∧ (setValue st p e2 true).2 = false := by
  refine ⟨?_, ?_, ?_, ?_, ?_, ?_, ?_, ?_⟩
  · simp [setValue, applyValueUpdate, hf]
  · intro h
    simp [extractValue, h]
  · intro h
    simp [extractValue, h]
  · simp [setValue, applyValueUpdate, hf]
  · intro h
    simp [setValue, h]
  · intro h
    simp [setValue, h]
  · cases h : st.modified <;> simp [setValue, h]
  · simp [setValue]

/-- C5: for a versioned collection document, the newer-versions (drafts)
query is issued only when the fetched published snapshot has a truthy
`updatedAt`; when issued, its filter adds
`updatedAt greater_than <published timestamp>` to the version query, a
non-200 response leaves `unpublishedVersions` null (no drafts, not an
error), and a 200 response stores its body. -/
theorem documentInfo_draftsProbe (fetchFn : Req → FetchResponse) (c : CollectionDesc)
    (i baseURL : String) (hv : c.versions = true) :
    (truthy (getField (collectionPublished fetchFn c i baseURL) "updatedAt") = false →
      getVersions fetchFn none (some c) (some i) baseURL =
        ([collectionPubReq c.slug i baseURL, collectionVerReq c.slug i baseURL],
         some ⟨collectionPublished fetchFn c i baseURL,
               (fetchFn (collectionVerReq c.slug i baseURL)).body, JSValue.nullv⟩))
    ∧ (truthy (getField (collectionPublished fetchFn c i baseURL) "updatedAt") = true →
        getVersions fetchFn none (some c) (some i) baseURL =
          ([collectionPubReq c.slug i baseURL, collectionVerReq c.slug i baseURL,
            collectionNewerReq c.slug i baseURL
              (getField (collectionPublished fetchFn c i baseURL) "updatedAt")],
           some ⟨collectionPublished fetchFn c i baseURL,
                 (fetchFn (collectionVerReq c.slug i baseURL)).body,
                 if (fetchFn (collectionNewerReq c.slug i baseURL
                      (getField (collectionPublished fetchFn c i baseURL) "updatedAt"))).status = 200
                 then (fetchFn (collectionNewerReq c.slug i baseURL
                      (getField (collectionPublished fetchFn c i baseURL) "updatedAt"))).body
                 else JSValue.nullv⟩)) := by
  unfold getVersions collectionPublished collectionPubReq collectionVerReq collectionNewerReq
  simp only [hv, Option.isSome_some, if_true, idToJS, List.nil_append, List.cons_append,
    List.singleton_append, List.append_nil]
  constructor <;> intro h <;> simp only [h, if_true, if_false, Bool.false_eq_true,
    reduceIte]

/-- C5 witness, the spec's scenario run against the modelled server:
id "42", `collection.versions = true`, published `updatedAt`
2024-01-01; of the two stored versions (2024-01-01 and 2024-01-02) only
the strictly newer one lands in `unpublishedVersions`, and the
published snapshot keeps the published timestamp. -/
theorem documentInfo_draftsProbe_witness :
    (getVersions serverOracle none (some ⟨"posts", true⟩) (some "42") "").2 =
      some ⟨JSValue.object [("id", JSValue.string "42"),
                            ("updatedAt", JSValue.string "2024-01-01T00:00:00Z")],
            JSValue.object [("docs", JSValue.array postVersions)],
            JSValue.object [("docs", JSValue.array
              [JSValue.object [("parent", JSValue.string "42"),
                               ("updatedAt", JSValue.string "2024-01-02T00:00:00Z")]])]⟩
    ∧ getField post42 "updatedAt" = JSValue.string "2024-01-01T00:00:00Z" := by
  have h := (documentInfo_draftsProbe serverOracle ⟨"posts", true⟩ "42" "" rfl).2 rfl
  exact ⟨by rw [h]; rfl, rfl⟩

/-- C4 witness: on the concrete form, `setValue(demoEvent)` stores
`"new"` (the event's `target.value`), keeps `initialValue = "init"`,
and flips the modified flag. -/
theorem useField_setValue_spec_witness :
    ((setValue demoForm "title" demoEvent false).1.fields "title").map (·.value)
      = some (JSValue.string "new")
    ∧ ((setValue demoForm "title" demoEvent false).1.fields "title").map (·.initialValue)
      = some (JSValue.string "init")
    ∧ (setValue demoForm "title" demoEvent false).2 = true := by
  have h := useField_setValue_spec demoForm "title" demoEvent (JSValue.string "x") demoEntry rfl
  exact ⟨by rw [h.1]; rfl, h.2.2.2.1, (h.2.2.2.2.1 rfl).1⟩

/-- Indexing just past a prefix of an append picks the cons head. -/
theorem get?_append_cons (pre post : List SNode) (x : SNode) :
    (pre ++ x :: post).get? pre.length = some x := by
  induction pre with
  | nil => rfl
  | cons a as ih => exact ih

/-- Dropping a prefix of an append plus one more element leaves the tail. -/
theorem drop_append_cons (pre post : List SNode) (x : SNode) :
    (pre ++ x :: post).drop (pre.length + 1) = post := by
  induction pre with
  | nil => rfl
  | cons a as ih => exact ih

/-- A non-nil list is not `isEmpty`. -/
theorem isEmpty_eq_false_of_ne {l : List SNode} (h : l ≠ []) : l.isEmpty = false := by
  rcases hl : l.isEmpty with _ | _
  · rfl
  · exact absurd (List.isEmpty_iff.mp hl) h

/-- C7: Backspace on the last remaining character (a length-1 leaf, so
in particular at offset 1) inside an `li` whose enclosing root element is
a list container unwraps the list with split: the selected item is
promoted out between the re-wrapped earlier and later siblings (absent
when the item is first/last), every sibling is preserved, and a
single-item list is unwrapped entirely. -/
theorem richText_backspace_listItem
    (pre post items cs : List SNode) (k off : Nat) (t s : String) (vt : List String)
    (ht : listTypes.contains t = true)
    (hk : items.get? k = some (SNode.element (some "li") (SNode.text s :: cs)))
    (hs : s.length = 1) :
    (onBackspace ⟨pre ++ SNode.element (some t) items :: post, [pre.length, k, 0], off, vt⟩).children
      = pre ++ ((if k = 0 then [] else [SNode.element (some t) (items.take k)])
          ++ SNode.element (some "li") (SNode.text s :: cs)
            :: (if items.length ≤ k + 1 then []
                else [SNode.element (some t) (items.drop (k + 1))]))
          ++ post
    ∧ items.take k ++ SNode.element (some "li") (SNode.text s :: cs) :: items.drop (k + 1) = items
    ∧ (items = [SNode.element (some "li") (SNode.text s :: cs)] →
        (onBackspace ⟨pre ++ SNode.element (some t) items :: post, [pre.length, k, 0], off, vt⟩).children
          = pre ++ SNode.element (some "li") (SNode.text s :: cs) :: post) := by
  have hroot : (pre ++ SNode.element (some t) items :: post).get? pre.length
      = some (SNode.element (some t) items) := get?_append_cons pre post _
  have hklt : k < items.length := (List.get?_eq_some.mp hk).1
  have hdrop : items.drop k
      = SNode.element (some "li") (SNode.text s :: cs) :: items.drop (k + 1) := by
    have hk2 : items[k]? = some (SNode.element (some "li") (SNode.text s :: cs)) := by
      rw [← List.get?_eq_getElem?]
      exact hk
    obtain ⟨h1, h2⟩ := List.getElem?_eq_some.mp hk2
    rw [List.drop_eq_getElem_cons hklt, h2]
  have hne : items ≠ [] := by
    intro h
    rw [h] at hklt
    exact Nat.not_lt_zero k hklt
  have hsel : descendant (pre ++ SNode.element (some t) items :: post) [pre.length, k]
      = some (SNode.element (some "li") (SNode.text s :: cs)) := by
    simp only [descendant]
    rw [hroot]
    simp only [descendant]
    exact hk
  have hleaf : descendant (pre ++ SNode.element (some t) items :: post) [pre.length, k, 0]
      = some (SNode.text s) := by
    simp only [descendant]
    rw [hroot]
    simp only [descendant]
    rw [hk]
    rfl
  have e1 : (if (items.take k).isEmpty = true then ([] : List SNode)
        else [SNode.element (some t) (items.take k)])
      = if k = 0 then [] else [SNode.element (some t) (items.take k)] := by
    by_cases hk0 : k = 0
    · subst hk0
      simp
    · have hnil : items.take k ≠ [] := by
        intro h
        rw [List.take_eq_nil_iff] at h
        rcases h with h | h
        · exact hk0 h
        · exact hne h
      rw [if_neg hk0, if_neg (by simp [isEmpty_eq_false_of_ne hnil])]
  have e2 : (if (items.drop (k + 1)).isEmpty = true then ([] : List SNode)
        else [SNode.element (some t) (items.drop (k + 1))])
      = if items.length ≤ k + 1 then [] else [SNode.element (some t) (items.drop (k + 1))] := by
    by_cases hlast : items.length ≤ k + 1
    · rw [if_pos hlast, if_pos]
      rw [List.isEmpty_iff, List.drop_eq_nil_iff]
      exact hlast
    · have hnil : items.drop (k + 1) ≠ [] := by
        rw [Ne, List.drop_eq_nil_iff]
        exact hlast
      rw [if_neg (by simp [isEmpty_eq_false_of_ne hnil]), if_neg hlast]
  have hunwrap : unwrapListSplit (pre ++ SNode.element (some t) items :: post) [pre.length, k]
      = pre ++ ((if k = 0 then [] else [SNode.element (some t) (items.take k)])
          ++ SNode.element (some "li") (SNode.text s :: cs)
            :: (if items.length ≤ k + 1 then []
                else [SNode.element (some t) (items.drop (k + 1))]))
          ++ post := by
    simp only [unwrapListSplit]
    rw [hroot]
    simp only [ht, if_true, hdrop, List.take_succ_cons, List.take_zero, List.take_left,
      drop_append_cons, e1, e2]
    simp [List.append_assoc]
  have hchildren :
      (onBackspace ⟨pre ++ SNode.element (some t) items :: post, [pre.length, k, 0], off, vt⟩).children
        = unwrapListSplit (pre ++ SNode.element (some t) items :: post) [pre.length, k] := by
    simp only [onBackspace, List.dropLast, hsel, hleaf, hs, reduceIte]
  refine ⟨by rw [hchildren, hunwrap], ?_, ?_⟩
  · rw [← hdrop]
    exact List.take_append_drop k items
  · intro hitems
    have hk0 : k = 0 := by
      rw [hitems] at hklt
      simpa using Nat.lt_one_iff.mp hklt
    subst hk0
    rw [hchildren, hunwrap, hitems]
    simp


/-- C7 witness: backspacing the single character of the middle item of a
three-item list splits the list around the promoted item; both sibling
items survive. -/
theorem richText_backspace_listItem_witness :
    (onBackspace ⟨[SNode.element (some "ul") demoItems], [0, 1, 0], 1, []⟩).children
      = [SNode.element (some "ul") [SNode.element (some "li") [SNode.text "a"]],
         SNode.element (some "li") [SNode.text "x"],
         SNode.element (some "ul") [SNode.element (some "li") [SNode.text "b"]]] := by
  have h := (richText_backspace_listItem [] [] demoItems [] 1 1 "ul" "x" [] rfl rfl rfl).1
  simpa [demoItems] using h

end Payload
